import Mathlib

/-!
Verification development for the ws repository: a shallow embedding of the
cache-backed downloader (`src/ws/download.py`) and the persistent cache
(`src/pdict.py`), with theorems settling the specification's claims.
-/

namespace WS

/-! ### Data model, from `src/ws/download.py` -/

/-- `SUCCESS_STATUS = (200, 201)` (download.py line 12). -/
def SUCCESS_STATUS : List Int := [200, 201]

/-- `NON_RETRIABLE_STATUS = (404, )` (download.py line 13). -/
def NON_RETRIABLE_STATUS : List Int := [404]

/-- `Request` dataclass (download.py lines 16-29).  `data` is the optional
POST body (`None` modelled as `none`); `cb` replaces the `callback`
attribute by an index into a callback environment, so that requests stay
plain data. -/
structure Request where
  url : String
  data : Option String := none
  cb : Option Nat := none
deriving DecidableEq

/-- `Request.get_key` (download.py lines 23-29): the key is the url, with
`' ' + data` appended when `data` is truthy (Python's `if self.data:` is
false for both `None` and the empty string). -/
def Request.get_key (r : Request) : String :=
  match r.data with
  | some d => if d = "" then r.url else r.url ++ " " ++ d
  | none => r.url

/-- `Response` (download.py lines 32-38): only the fields set in
`__init__` plus `redirect_url`; the lazily-built xpath tree is an external
collaborator and not part of the model. -/
structure Response where
  text : String
  status_code : Int
  reason : String
  redirect_url : Option String := none
deriving DecidableEq

/-- `Download._should_retry` (download.py lines 111-115). -/
def should_retry (resp : Response) (num_failures max_retries : Nat) : Bool :=
  if resp.status_code ∈ SUCCESS_STATUS ∨ resp.status_code ∈ NON_RETRIABLE_STATUS then
    false
  else
    decide (num_failures < max_retries)

/-- A value stored in the cache: either a pickled `Response` or any other
pickled object (download.py line 127 tests `isinstance(response, Response)`;
non-`Response` values are modelled by their string content). -/
inductive CacheVal where
  | resp (r : Response)
  | raw (s : String)
deriving DecidableEq

/-- Lines 126-128 of download.py: a cached value that is not a `Response`
is wrapped as `Response(response, 200, '')`. -/
def CacheVal.toResponse : CacheVal → Response
  | .resp r => r
  | .raw s => ⟨s, 200, "", none⟩

/-! ### PersistentDict, from `src/pdict.py`

Timestamps are rationals (seconds); `datetime.datetime.now()` becomes an
explicit `now` argument at each operation.  Values are an opaque type
parameter (the store pickles arbitrary objects); `serialize`/`deserialize`
round-trip and are modelled as the identity. -/

/-- One sqlite row of the `config` table: key, value, `updated` timestamp
(the `meta` column is reset to `{}` by `__setitem__` and not claimed
about, so it is omitted). -/
structure PDict (α : Type) where
  rows : List (String × α × Rat)
  expires : Option Rat
deriving DecidableEq

/-- `PersistentDict.is_fresh` (pdict.py lines 188-191):
`self.expires is None or datetime.datetime.now() - t < self.expires`. -/
def is_fresh (expires : Option Rat) (now t : Rat) : Bool :=
  match expires with
  | none => true
  | some e => decide (now - t < e)

/-- `PersistentDict.__setitem__` (pdict.py lines 167-173): `INSERT OR
REPLACE` with `updated = datetime.datetime.now()`.  The new row is
prepended and lookups take the first match, which is observationally the
sqlite REPLACE on the unique primary key. -/
def PDict.setitem (d : PDict α) (now : Rat) (k : String) (v : α) : PDict α :=
  { d with rows := (k, v, now) :: d.rows }

/-- Result of `PersistentDict.__getitem__`: the two distinct `KeyError`
messages of pdict.py lines 156 and 158 are kept apart. -/
inductive PGet (α : Type) where
  | found (v : α)
  | staleKey
  | missingKey
deriving DecidableEq

/-- First row for a key, as `SELECT ... WHERE key=?` with the REPLACE
discipline of `PDict.setitem`. -/
def PDict.row (d : PDict α) (k : String) : Option (String × α × Rat) :=
  d.rows.find? (fun r => r.1 == k)

/-- `PersistentDict.__getitem__` (pdict.py lines 147-158): missing key and
stale key raise distinct `KeyError`s; a fresh row returns its value. -/
def PDict.getitem (d : PDict α) (now : Rat) (k : String) : PGet α :=
  match d.row k with
  | some (_, v, t) => if is_fresh d.expires now t then .found v else .staleKey
  | none => .missingKey

/-- The `updated` timestamp recorded for a key, if any. -/
def PDict.updatedOf (d : PDict α) (k : String) : Option Rat :=
  (d.row k).map (fun r => r.2.2)

/-- The attributes defined by `class PersistentDict` (pdict.py lines
25-245): its methods and the instance attributes set in `__init__`.
Looking up any other name on an instance raises `AttributeError`. -/
def persistentDictAttrs : List String :=
  ["__init__", "__copy__", "__contains__", "contains", "__iter__",
   "__bool__", "__nonzero__", "__len__", "__getitem__", "__delitem__",
   "__setitem__", "serialize", "deserialize", "is_fresh", "get", "meta",
   "clear", "merge", "vacuum",
   "filename", "compress_level", "expires", "timeout", "isolation_level", "conn"]

/-- `PersistentDict.merge` (pdict.py lines 235-241) begins with
`for key in db.keys():`.  `PersistentDict` defines no `keys` attribute
(see `persistentDictAttrs`), so the attribute lookup raises
`AttributeError` before any entry is copied. -/
def PDict.merge (self _other : PDict α) (_override : Bool) : Except String (PDict α) :=
  if "keys" ∈ persistentDictAttrs then
    -- not reached: the guard is decidably false (theorem keys_not_an_attribute)
    .ok self
  else
    .error "AttributeError: PersistentDict object has no attribute keys"

/-! ### Throttle, from `src/ws/download.py` lines 69-81

Wall-clock instants are rationals (seconds).  One call takes the current
instant `now` and the jitter `r` (for `random.random()`, so `0 ≤ r < 1`)
as explicit arguments.  The sleep loop `while next_time > datetime.now():
time.sleep(0.1)` lets the call return at the first instant at or past
`next_time`, and immediately (at `now`) when `next_time ≤ now`; the
returned instant below is that earliest return instant `max now next`. -/

/-- `Throttle.__init__`: a default delay and the `last_time` map (keys are
proxy identities, `None` for the global key). -/
structure ThrottleState where
  delay : Rat
  last_time : List (Option String × Rat)
deriving DecidableEq

/-- `self.last_time.get(ip, default)`. -/
def lastTimeGet (m : List (Option String × Rat)) (ip : Option String) (dflt : Rat) : Rat :=
  match m.find? (fun kv => kv.1 == ip) with
  | some kv => kv.2
  | none => dflt

/-- `Throttle.__call__` (download.py lines 74-81): returns the instant at
which the call completes together with the new state.  Note line 81 stores
`next_time`, not the instant at which the call actually returned. -/
def Throttle.call (st : ThrottleState) (delayArg : Option Rat) (ip : Option String)
    (now r : Rat) : Rat × ThrottleState :=
  let delay := delayArg.getD st.delay
  let seconds := delay * (1/2 + r)
  let last_time := lastTimeGet st.last_time ip (now - seconds)
  let next_time := last_time + seconds
  (max now next_time, { st with last_time := (ip, next_time) :: st.last_time })

/-! ### Download.get, from `src/ws/download.py` lines 118-171

The network is an oracle `net : Nat → NetResult` giving the outcome of
the attempt at each `num_failures` index; throttling, timeouts, header
merging and the bytes/text choice (`auto_encoding`) do not affect the
claims and are folded into the oracle's structural fields.  The cache
read is an oracle `cache : String → Option CacheVal` where `none` models
the `KeyError` raised for a missing or stale key. -/

/-- Outcome of one `session.get`/`session.post` call: an exception with
its description `str(e)`, or a structural HTTP response with content,
status code, reason, and the final resolved url `request_response.url`. -/
inductive NetResult where
  | exn (desc : String)
  | ok (content : String) (status : Int) (reason : String) (finalUrl : String)
deriving DecidableEq

/-- `Download.get_proxy` (download.py lines 167-171): pop the last proxy
and push it back at the front; `None` when the list is empty. -/
def get_proxy (proxies : List String) : Option String × List String :=
  match proxies.getLast? with
  | some p => (some p, p :: proxies.dropLast)
  | none => (none, proxies)

/-- `self.proxy_errors[proxy] += 1` on a `collections.Counter`. -/
def bumpErr (perr : Option String → Nat) (p : Option String) : Option String → Nat :=
  fun q => if q = p then perr p + 1 else perr q

/-- `self.proxy_errors[proxy] = 0`. -/
def resetErr (perr : Option String → Nat) (p : Option String) : Option String → Nat :=
  fun q => if q = p then 0 else perr q

/-- The `Response` built from one network attempt (download.py lines
148-156): an exception becomes `Response('', 500, str(e))`; a structural
response records `redirect_url` when the final url differs. -/
def attemptResponse (url : String) : NetResult → Response
  | .exn desc => ⟨"", 500, desc, none⟩
  | .ok content status reason finalUrl =>
      ⟨content, status, reason, if finalUrl ≠ url then some finalUrl else none⟩

/-- State and observations produced by the retry loop; `attempts` counts
the network calls performed. -/
structure LoopResult where
  response : Response
  attempts : Nat
  proxies : List String
  proxy_errors : Option String → Nat

/-- The retry loop `for num_failures in range(max_retries + 1):`
(download.py lines 139-161).  `fuel` is the number of remaining loop
indices; `last` is the `response` variable from the previous iteration
(returned when the range is exhausted without `break`).  On an exception
the proxy's error counter is incremented and the loop moves on (there is
no break test on this path); on a structural response, `_should_retry`
decides between another iteration — after which line 161 resets the
proxy's counter — and `break`, which skips the reset on line 161. -/
def runAttempts (net : Nat → NetResult) (url : String) (max_retries : Nat)
    (use_proxy : Bool) :
    Nat → Nat → List String → (Option String → Nat) → Response → LoopResult
  | 0, _, proxies, perr, last => ⟨last, 0, proxies, perr⟩
  | fuel + 1, num_failures, proxies, perr, _last =>
    let pp := if use_proxy then get_proxy proxies else (none, proxies)
    match net num_failures with
    | .exn desc =>
        let resp : Response := ⟨"", 500, desc, none⟩
        let out := runAttempts net url max_retries use_proxy fuel (num_failures + 1)
          pp.2 (bumpErr perr pp.1) resp
        { out with attempts := out.attempts + 1 }
    | .ok content status reason finalUrl =>
        let resp : Response :=
          ⟨content, status, reason, if finalUrl ≠ url then some finalUrl else none⟩
        if should_retry resp num_failures max_retries then
          let out := runAttempts net url max_retries use_proxy fuel (num_failures + 1)
            pp.2 (resetErr perr pp.1) resp
          { out with attempts := out.attempts + 1 }
        else
          ⟨resp, 1, pp.2, perr⟩

/-- The fresh-cache-hit test of `Download.get` (download.py lines
123-131): with `read_cache` enabled, a fresh cached value is wrapped into
a `Response` when needed and served unless `_should_retry(response, 0,
max_retries)` holds (in which case a `KeyError` is raised to fall into
the network branch). -/
def freshHit (read_cache : Bool) (cache : String → Option CacheVal) (key : String)
    (max_retries : Nat) : Option Response :=
  if read_cache then
    match cache key with
    | some v =>
        if should_retry v.toResponse 0 max_retries then none else some v.toResponse
    | none => none
  else none

/-- What a call to `Download.get` returns and does. -/
structure GetResult where
  response : Response
  attempts : Nat
  wrote : Option (String × Response)
  proxies : List String
  proxy_errors : Option String → Nat

/-- The key resolved at download.py line 121:
`key = key or Request(url, data=data).get_key()` (an empty string passed
as `key` is falsy). -/
def Download.getKey (url : String) (data : Option String) (key? : Option String) : String :=
  match key? with
  | some k => if k = "" then (Request.mk url data none).get_key else k
  | none => (Request.mk url data none).get_key

/-- `Download.get` (download.py lines 118-164): resolve the key, dispatch
on the fresh-cache-hit test, then the retry loop and, when `write_cache`
is set, write the final response under the key.  `max_retries` is already
resolved against the instance default. -/
def Download.get (read_cache write_cache : Bool) (cache : String → Option CacheVal)
    (net : Nat → NetResult) (url : String) (data : Option String) (key? : Option String)
    (max_retries : Nat) (use_proxy : Bool) (proxies : List String)
    (perr : Option String → Nat) : GetResult :=
  let key := Download.getKey url data key?
  match freshHit read_cache cache key max_retries with
  | some r => ⟨r, 0, none, proxies, perr⟩
  | none =>
      let out := runAttempts net url max_retries use_proxy (max_retries + 1) 0
        proxies perr ⟨"", 0, "", none⟩
      ⟨out.response, out.attempts,
        if write_cache then some (key, out.response) else none,
        out.proxies, out.proxy_errors⟩

/-- A network outcome that cannot satisfy the break condition of the
retry loop at indices below `max_retries`: a transport exception, or a
structural response whose status is in neither the success nor the
non-retriable set (e.g. 503). -/
def NetResult.retriableOutcome : NetResult → Bool
  | .exn _ => true
  | .ok _ status _ _ =>
      !(decide (status ∈ SUCCESS_STATUS ∨ status ∈ NON_RETRIABLE_STATUS))

/-! ### Download.threaded, from `src/ws/download.py` lines 179-233

The worker pool is abstracted by a fetch oracle `fetch : Request →
Except String Response` (the outcome of `future.result()`: the response,
or the exception raised inside the worker), and by a completion-order
oracle `reorder` applied to each round's submitted batch (tasks complete
in an arbitrary order).  Callbacks are an environment `cbEnv` indexed by
`Request.cb`; a callback either raises (`Except.error`) or yields a list
of items.  Results (the values the generator yields to the caller) are
strings, opaque to the loop. -/

/-- An item yielded by a caller-supplied callback: a new `Request`, or
anything else, which `threaded` forwards to its caller. -/
inductive Yielded where
  | req (r : Request)
  | out (s : String)
deriving DecidableEq

/-- Callback environment: `cbEnv i req resp` is what the callback with
index `i` does when invoked on `(req, resp)` — raise, or yield items
(`None` from a callback is already normalised to `[]` by
`request.callback(request, response) or []`). -/
def CbEnv : Type := Nat → Request → Response → Except String (List Yielded)

/-- Mutable state of one `threaded` run: the `requests` list (appended at
the end, popped from the end), the `seen` keys, and the cache contents.
`seen` models `adt.HashDict`, which is imported by `ws/download.py` but
missing from the source tree; modelled from the spec: "a 'seen' set of
request keys", as a list of keys with membership and add. -/
structure CrawlState where
  pending : List Request
  seen : List String
  cache : List (String × CacheVal)

/-- Fresh lookup in the run's cache (`self.cache[key]`, first match;
`none` models `KeyError` for a missing or stale key). -/
def cacheLookup (c : List (String × CacheVal)) (k : String) : Option CacheVal :=
  (c.find? (fun kv => kv.1 == k)).map (fun kv => kv.2)

/-- The call `self._should_retry(response)` at download.py line 215:
`_should_retry` (line 111) declares `(self, response, num_failures,
max_retries)` with no defaults, so this one-argument call raises
`TypeError` before its body is evaluated. -/
def should_retry_one_arg_call (_resp : CacheVal) : Except String Bool :=
  .error "TypeError: _should_retry() missing 2 required positional arguments: num_failures and max_retries"

/-- Where one pending request goes: to the worker pool, or served inline
from the cache. -/
inductive Dispatch where
  | submit
  | inline (v : CacheVal)
deriving DecidableEq

/-- The per-request cache check of `Download.threaded` (lines 212-221):
a `KeyError` — from the lookup, or re-raised when the retry check asks
for a retry — is caught and the request is submitted; any other
exception propagates out of the generator. -/
def threadedDispatch (cache : List (String × CacheVal)) (req : Request) :
    Except String Dispatch :=
  match cacheLookup cache req.get_key with
  | none => .ok .submit
  | some v =>
      match should_retry_one_arg_call v with
      | .error e => .error e
      | .ok b => .ok (if b then .submit else .inline v)

/-- The body of `process_callback`'s for-loop (lines 182-191): each
yielded `Request` is appended to the pending list — with
`filter_duplicates`, only when its key is unseen, marking it seen — and
every other item is yielded to the caller. -/
def processYields (fd : Bool) : List Yielded → CrawlState → List String × CrawlState
  | [], st => ([], st)
  | .req r :: rest, st =>
      if fd then
        if r.get_key ∈ st.seen then
          processYields fd rest st
        else
          processYields fd rest
            { st with pending := st.pending ++ [r], seen := r.get_key :: st.seen }
      else
        processYields fd rest { st with pending := st.pending ++ [r] }
  | .out s :: rest, st =>
      let p := processYields fd rest st
      (s :: p.1, p.2)

/-- `process_callback` (lines 180-191): nothing happens without a
callback; a callback that raises propagates the exception (there is no
handler around the callback invocation). -/
def process_callback (fd : Bool) (cbEnv : CbEnv) (req : Request) (resp : Response)
    (st : CrawlState) : Except String (List String × CrawlState) :=
  match req.cb with
  | none => .ok ([], st)
  | some i =>
      match cbEnv i req resp with
      | .error e => .error e
      | .ok items => .ok (processYields fd items st)

/-- Observations of processing one completed batch: the results yielded
so far, the final state, and the uncaught exception if the generator
aborted. -/
structure BatchOutcome where
  outs : List String
  st : CrawlState
  err : Option String

/-- The `as_completed` loop (lines 224-233), over the batch in completion
order: an exception from `future.result()` is caught, logged and the task
skipped; on a response, the cache is written and `process_callback` runs
— an exception raised there is outside the `try` and aborts the run. -/
def processCompleted (fd : Bool) (cbEnv : CbEnv) :
    List (Request × Except String Response) → CrawlState → BatchOutcome
  | [], st => ⟨[], st, none⟩
  | (req, fres) :: rest, st =>
      match fres with
      | .error _ => processCompleted fd cbEnv rest st
      | .ok resp =>
          let st1 := { st with cache := (req.get_key, CacheVal.resp resp) :: st.cache }
          match process_callback fd cbEnv req resp st1 with
          | .error e => ⟨[], st1, some e⟩
          | .ok p =>
              let b := processCompleted fd cbEnv rest p.2
              ⟨p.1 ++ b.outs, b.st, b.err⟩

/-- Lines 203-209: pop up to `max_queue` requests off the end of the
pending list (`requests.pop()` takes the last element), returning them in
pop order together with what remains pending. -/
def popWindow (max_queue : Nat) (pending : List Request) : List Request × List Request :=
  (pending.reverse.take max_queue, (pending.reverse.drop max_queue).reverse)

/-- Observations of the dispatch phase of one round (lines 211-221). -/
structure DispatchOutcome where
  batch : List (Request × Except String Response)
  submitted : List String
  outs : List String
  st : CrawlState
  err : Option String

/-- Dispatch each pulled request in order: submissions record the
request's key and pair the request with its future's eventual outcome;
the inline branch would serve the raw cached value through
`process_callback` (it is unreachable — see `threadedDispatch_no_inline`
— because the retry check raises `TypeError`, which aborts the run). -/
def dispatchAll (fetch : Request → Except String Response) (fd : Bool) (cbEnv : CbEnv) :
    List Request → CrawlState → DispatchOutcome
  | [], st => ⟨[], [], [], st, none⟩
  | req :: rest, st =>
      match threadedDispatch st.cache req with
      | .error e => ⟨[], [], [], st, some e⟩
      | .ok .submit =>
          let d := dispatchAll fetch fd cbEnv rest st
          ⟨(req, fetch req) :: d.batch, req.get_key :: d.submitted, d.outs, d.st, d.err⟩
      | .ok (.inline v) =>
          match process_callback fd cbEnv req v.toResponse st with
          | .error e => ⟨[], [], [], st, some e⟩
          | .ok p =>
              let d := dispatchAll fetch fd cbEnv rest p.2
              ⟨d.batch, d.submitted, p.1 ++ d.outs, d.st, d.err⟩

/-- Observations of a whole `threaded` run: the yielded results, the keys
submitted to the worker pool in submission order, the uncaught exception
if the run aborted, and the final state. -/
structure RunOutcome where
  results : List String
  submitted : List String
  err : Option String
  st : CrawlState

/-- The `while requests:` loop (lines 202-233).  `fuel` bounds the number
of rounds (the Python loop may run unboundedly when callbacks keep
producing work); a run that exhausts its fuel reports the observations so
far. -/
def threadedLoop (fetch : Request → Except String Response)
    (reorder : Nat → List (Request × Except String Response) →
      List (Request × Except String Response))
    (fd : Bool) (cbEnv : CbEnv) (max_queue : Nat) :
    Nat → Nat → CrawlState → RunOutcome
  | 0, _, st => ⟨[], [], none, st⟩
  | fuel + 1, round, st =>
      if st.pending.isEmpty then ⟨[], [], none, st⟩
      else
        let pw := popWindow max_queue st.pending
        let d := dispatchAll fetch fd cbEnv pw.1 { st with pending := pw.2 }
        match d.err with
        | some e => ⟨d.outs, d.submitted, some e, d.st⟩
        | none =>
            let b := processCompleted fd cbEnv (reorder round d.batch) d.st
            match b.err with
            | some e => ⟨d.outs ++ b.outs, d.submitted, some e, b.st⟩
            | none =>
                let r := threadedLoop fetch reorder fd cbEnv max_queue fuel (round + 1) b.st
                ⟨d.outs ++ b.outs ++ r.results, d.submitted ++ r.submitted, r.err, r.st⟩

/-- Lines 194-200: with `filter_duplicates`, seed requests whose key was
already seen are dropped; kept seeds mark their key seen. -/
def seedFilterGo : List Request → List String → List Request × List String
  | [], seen => ([], seen)
  | r :: rest, seen =>
      if r.get_key ∈ seen then
        seedFilterGo rest seen
      else
        let p := seedFilterGo rest (r.get_key :: seen)
        (r :: p.1, p.2)

/-- `Download.threaded` (lines 179-233): `seen = adt.HashDict()` starts
empty, seeds are filtered when `filter_duplicates` is set, then the round
loop runs. -/
def Download.threaded (fetch : Request → Except String Response)
    (reorder : Nat → List (Request × Except String Response) →
      List (Request × Except String Response))
    (fd : Bool) (cbEnv : CbEnv) (max_queue fuel : Nat)
    (seeds : List Request) (cache0 : List (String × CacheVal)) : RunOutcome :=
  let p := if fd then seedFilterGo seeds [] else (seeds, [])
  threadedLoop fetch reorder fd cbEnv max_queue fuel 0 ⟨p.1, p.2, cache0⟩

/-- The keys of a list of requests. -/
def keysOf (l : List Request) : List String := l.map Request.get_key

/-- Invariant of a deduplicating (`filter_duplicates = true`) crawl:
pending keys are distinct, submitted keys are distinct, no key is both
pending and already submitted, and every pending or submitted key has
been recorded in `seen`. -/
structure CrawlInv (st : CrawlState) (submitted : List String) : Prop where
  pend_nodup : (keysOf st.pending).Nodup
  sub_nodup : submitted.Nodup
  disj : ∀ k, k ∈ keysOf st.pending → k ∉ submitted
  pend_seen : ∀ k, k ∈ keysOf st.pending → k ∈ st.seen
  sub_seen : ∀ k, k ∈ submitted → k ∈ st.seen

/-! ### Theorems: PersistentDict (claims C6, C8) -/

theorem keys_not_an_attribute : "keys" ∉ persistentDictAttrs := by decide

/-- **C6** — `__setitem__` records `updated = now`; a read at `now'` of a
row written at `T` is `found` while `now' - T < E` and `staleKey` once
`now' - T ≥ E` (so with `E = 0` the entry is stale immediately after the
put), and `expires = none` means the entry is never stale. -/
theorem C6_pdict_freshness {α : Type} (d : PDict α) (T now' : Rat) (k : String) (v : α) :
    ((d.setitem T k v).updatedOf k = some T) ∧
    (∀ E, d.expires = some E →
      (now' - T < E → (d.setitem T k v).getitem now' k = .found v) ∧
      (E ≤ now' - T → (d.setitem T k v).getitem now' k = .staleKey)) ∧
    (d.expires = none → (d.setitem T k v).getitem now' k = .found v) := by
  refine ⟨?_, ?_, ?_⟩
  · simp [PDict.setitem, PDict.updatedOf, PDict.row]
  · intro E hE
    constructor
    · intro hlt
      simp [PDict.setitem, PDict.getitem, PDict.row, is_fresh, hE, hlt]
    · intro hge
      simp [PDict.setitem, PDict.getitem, PDict.row, is_fresh, hE, not_lt.mpr hge]
  · intro hE
    simp [PDict.setitem, PDict.getitem, PDict.row, is_fresh, hE]

/-- Witness for C6: a store with `expires = 0`; a value put at time 0 is
already stale when read at time 1, and with `expires = none` it is found. -/
theorem C6_pdict_freshness_witness :
    ((⟨[], some 0⟩ : PDict String).setitem 0 "k" "v").getitem 1 "k" = .staleKey ∧
    ((⟨[], none⟩ : PDict String).setitem 0 "k" "v").getitem 1 "k" = .found "v" := by
  constructor
  · exact ((C6_pdict_freshness (⟨[], some 0⟩ : PDict String) 0 1 "k" "v").2.1 0 rfl).2 (by norm_num)
  · exact (C6_pdict_freshness (⟨[], none⟩ : PDict String) 0 1 "k" "v").2.2 rfl

/-- **C8** — the claim that `merge` terminates without raising and copies
the entries over is false on the code: `merge` iterates `db.keys()` and
`PersistentDict` defines no `keys` attribute, so every call raises
`AttributeError` before copying anything. -/
theorem C8_merge_raises {α : Type} (A B : PDict α) (override : Bool) :
    A.merge B override =
      .error "AttributeError: PersistentDict object has no attribute keys" := by
  simp [PDict.merge, keys_not_an_attribute]

/-! ### Theorems: Throttle (claim C9) -/

/-- **C9 counterexample** — the claim "two successive completed Throttle
calls for the same key return at least `0.5*d` apart" is false: with
`d = 1`, a first call at instant 0, a second at instant 10 and a third at
instant 101/10 (each after the previous returned), the second returns at
10 and the third at 101/10, only 1/10 < 0.5·1 apart.  This is because
line 81 stores the scheduled `next_time`, not the actual return instant. -/
theorem C9_throttle_spacing_counterexample :
    let st0 : ThrottleState := ⟨0, []⟩
    let c1 := Throttle.call st0 (some 1) none 0 0
    let c2 := Throttle.call c1.2 (some 1) none 10 0
    let c3 := Throttle.call c2.2 (some 1) none (101/10) 0
    c1.1 ≤ 10 ∧ c2.1 ≤ 101/10 ∧ c2.1 = 10 ∧ c3.1 = 101/10 ∧
      c3.1 - c2.1 < (1/2) * 1 := by
  refine ⟨?_, ?_, ?_, ?_, ?_⟩ <;>
    simp [Throttle.call, lastTimeGet, ThrottleState.delay] <;> norm_num

/-- **C9 amended** — each call returns no earlier than `d * (1/2 + r)`
after the timestamp recorded by the previous call for the same key (the
recorded timestamp being the scheduled `next_time`, not the actual return
instant); consequently, when the earlier call did not start after its own
scheduled time (`now1 ≤ next_time`, i.e. the throttle actually blocked),
two successive completed calls for the same key return at least `0.5*d`
apart. -/
theorem C9_throttle_spacing_amended (st : ThrottleState) (d : Rat) (ip : Option String)
    (now1 r1 now2 r2 : Rat) (hr2 : 0 ≤ r2) (hd : 0 ≤ d) :
    lastTimeGet (Throttle.call st (some d) ip now1 r1).2.last_time ip 0 + (1/2) * d
      ≤ (Throttle.call (Throttle.call st (some d) ip now1 r1).2 (some d) ip now2 r2).1 ∧
    (now1 ≤ lastTimeGet st.last_time ip (now1 - d * (1/2 + r1)) + d * (1/2 + r1) →
      (Throttle.call st (some d) ip now1 r1).1 + (1/2) * d
        ≤ (Throttle.call (Throttle.call st (some d) ip now1 r1).2 (some d) ip now2 r2).1) := by
  have hstep : ∀ x : Rat, x + (1/2) * d ≤ x + d * (1/2 + r2) := by
    intro x
    nlinarith
  have h1ret : (Throttle.call st (some d) ip now1 r1).1 =
      max now1 (lastTimeGet st.last_time ip (now1 - d * (1/2 + r1)) + d * (1/2 + r1)) := rfl
  have h1st : (Throttle.call st (some d) ip now1 r1).2.last_time =
      (ip, lastTimeGet st.last_time ip (now1 - d * (1/2 + r1)) + d * (1/2 + r1))
        :: st.last_time := rfl
  have hcons : ∀ (t dflt : Rat) (m : List (Option String × Rat)),
      lastTimeGet ((ip, t) :: m) ip dflt = t := by
    intro t dflt m
    simp [lastTimeGet]
  have hrec : lastTimeGet (Throttle.call st (some d) ip now1 r1).2.last_time ip 0 =
      lastTimeGet st.last_time ip (now1 - d * (1/2 + r1)) + d * (1/2 + r1) := by
    rw [h1st, hcons]
  have h2ret : (Throttle.call (Throttle.call st (some d) ip now1 r1).2 (some d) ip now2 r2).1 =
      max now2 (lastTimeGet (Throttle.call st (some d) ip now1 r1).2.last_time ip
        (now2 - d * (1/2 + r2)) + d * (1/2 + r2)) := rfl
  have hrec' : lastTimeGet (Throttle.call st (some d) ip now1 r1).2.last_time ip
      (now2 - d * (1/2 + r2)) =
      lastTimeGet st.last_time ip (now1 - d * (1/2 + r1)) + d * (1/2 + r1) := by
    rw [h1st, hcons]
  constructor
  · rw [hrec, h2ret, hrec']
    exact (hstep _).trans (le_max_right _ _)
  · intro h1
    rw [h1ret, h2ret, hrec', max_eq_right h1]
    exact (hstep _).trans (le_max_right _ _)

/-- Witness for C9 amended: concrete first and second calls with `d = 1`,
`r = 0`; the second call returns at least 1/2 after both the recorded
timestamp and the first call's return. -/
theorem C9_throttle_spacing_amended_witness :
    lastTimeGet (Throttle.call ⟨0, []⟩ (some 1) none 0 0).2.last_time none 0 + (1/2) * 1
      ≤ (Throttle.call (Throttle.call ⟨0, []⟩ (some 1) none 0 0).2 (some 1) none 0 0).1 ∧
    ((0 : Rat) ≤ lastTimeGet (⟨0, []⟩ : ThrottleState).last_time none (0 - 1 * (1/2 + 0))
        + 1 * (1/2 + 0) →
      (Throttle.call ⟨0, []⟩ (some 1) none 0 0).1 + (1/2) * 1
        ≤ (Throttle.call (Throttle.call ⟨0, []⟩ (some 1) none 0 0).2 (some 1) none 0 0).1) :=
  C9_throttle_spacing_amended ⟨0, []⟩ 1 none 0 0 0 0 (by norm_num) (by norm_num)

/-! ### Lemmas about the retry loop -/

/-- The loop performs at most `fuel` network attempts. -/
theorem runAttempts_attempts_le (net : Nat → NetResult) (url : String)
    (max_retries : Nat) (use_proxy : Bool) :
    ∀ fuel num_failures proxies perr last,
      (runAttempts net url max_retries use_proxy fuel num_failures
        proxies perr last).attempts ≤ fuel := by
  intro fuel
  induction fuel with
  | zero =>
      intro nf ps perr last
      simp [runAttempts]
  | succ fuel ih =>
      intro nf ps perr last
      simp only [runAttempts]
      cases net nf with
      | exn desc =>
          simpa using Nat.succ_le_succ (ih _ _ _ _)
      | ok content status reason finalUrl =>
          dsimp only
          generalize (if finalUrl ≠ url then some finalUrl else none) = ru
          split
          · simpa using Nat.succ_le_succ (ih _ _ _ _)
          · simp

/-- With at least one loop index available, at least one network attempt
is performed. -/
theorem runAttempts_attempts_pos (net : Nat → NetResult) (url : String)
    (max_retries : Nat) (use_proxy : Bool)
    (fuel num_failures : Nat) (proxies : List String) (perr : Option String → Nat)
    (last : Response) :
    1 ≤ (runAttempts net url max_retries use_proxy (fuel + 1) num_failures
      proxies perr last).attempts := by
  simp only [runAttempts]
  cases net num_failures with
  | exn desc => simp
  | ok content status reason finalUrl =>
      dsimp only
      generalize (if finalUrl ≠ url then some finalUrl else none) = ru
      split
      · simp
      · simp

/-- When every attempt outcome up to `max_retries` is retriable
(exception, or status outside both terminal sets), the loop exhausts its
indices: it makes exactly `fuel` further attempts and ends with the
response of the last attempt. -/
theorem runAttempts_retriable (net : Nat → NetResult) (url : String)
    (max_retries : Nat) (use_proxy : Bool)
    (hall : ∀ i, i ≤ max_retries → (net i).retriableOutcome = true) :
    ∀ fuel num_failures proxies perr last,
      num_failures + fuel = max_retries + 1 →
      (runAttempts net url max_retries use_proxy fuel num_failures
          proxies perr last).attempts = fuel ∧
      (runAttempts net url max_retries use_proxy fuel num_failures
          proxies perr last).response =
        (if fuel = 0 then last else attemptResponse url (net max_retries)) := by
  intro fuel
  induction fuel with
  | zero =>
      intro nf ps perr last _
      simp [runAttempts]
  | succ fuel ih =>
      intro nf ps perr last hrel
      have hle : nf ≤ max_retries := by omega
      simp only [runAttempts]
      cases hn : net nf with
      | exn desc =>
          dsimp only
          have hrec := ih (nf + 1) (if use_proxy then get_proxy ps else (none, ps)).2
            (bumpErr perr (if use_proxy then get_proxy ps else (none, ps)).1)
            ⟨"", 500, desc, none⟩ (by omega)
          refine ⟨by rw [hrec.1], ?_⟩
          rcases Nat.eq_zero_or_pos fuel with hf | hf
          · have hnf : max_retries = nf := by omega
            subst hf
            rw [hrec.2]
            simp [hnf, hn, attemptResponse]
          · have hne : fuel ≠ 0 := by omega
            rw [hrec.2]
            simp [hne]
      | ok content status reason finalUrl =>
          have hout : ¬(status ∈ SUCCESS_STATUS ∨ status ∈ NON_RETRIABLE_STATUS) := by
            have hro := hall nf hle
            rw [hn] at hro
            simpa [NetResult.retriableOutcome] using hro
          dsimp only
          generalize hru : (if finalUrl ≠ url then some finalUrl else none) = ru
          split
          · rename_i hsr
            have hlt : nf < max_retries := by
              simp [should_retry, hout] at hsr
              exact hsr
            have hne : fuel ≠ 0 := by omega
            have hrec := ih (nf + 1) (if use_proxy then get_proxy ps else (none, ps)).2
              (resetErr perr (if use_proxy then get_proxy ps else (none, ps)).1)
              ⟨content, status, reason, ru⟩ (by omega)
            refine ⟨by rw [hrec.1], ?_⟩
            rw [hrec.2]
            simp [hne]
          · rename_i hsr
            have hge : ¬nf < max_retries := by
              intro hlt
              exact hsr (by simp [should_retry, hout, hlt])
            have hnf : max_retries = nf := by omega
            have hf : fuel = 0 := by omega
            subst hf
            refine ⟨rfl, ?_⟩
            simp [hnf, hn, attemptResponse, ← hru]

/-! ### Theorems: Download.get (claims C1, C5, C7, C10) -/

/-- **C1** — with `read_cache` enabled and a fresh cache entry whose
(wrapped) response does not satisfy `_should_retry`, `get` returns that
response with zero network attempts; otherwise it performs between 1 and
`max_retries + 1` attempts; and when every attempt outcome is retriable
(e.g. all status 503), it performs exactly `max_retries + 1` attempts and
— with `write_cache` — caches that final response under the key. -/
theorem C1_get_cache_hit_and_attempt_bounds (read_cache write_cache : Bool)
    (cache : String → Option CacheVal) (net : Nat → NetResult) (url : String)
    (data : Option String) (key? : Option String) (max_retries : Nat)
    (use_proxy : Bool) (proxies : List String) (perr : Option String → Nat) :
    (∀ r, freshHit read_cache cache (Download.getKey url data key?) max_retries = some r →
      (Download.get read_cache write_cache cache net url data key? max_retries
        use_proxy proxies perr).response = r ∧
      (Download.get read_cache write_cache cache net url data key? max_retries
        use_proxy proxies perr).attempts = 0) ∧
    (freshHit read_cache cache (Download.getKey url data key?) max_retries = none →
      1 ≤ (Download.get read_cache write_cache cache net url data key? max_retries
        use_proxy proxies perr).attempts ∧
      (Download.get read_cache write_cache cache net url data key? max_retries
        use_proxy proxies perr).attempts ≤ max_retries + 1) ∧
    (freshHit read_cache cache (Download.getKey url data key?) max_retries = none →
      (∀ i, i ≤ max_retries → (net i).retriableOutcome = true) →
      (Download.get read_cache write_cache cache net url data key? max_retries
        use_proxy proxies perr).attempts = max_retries + 1 ∧
      (Download.get read_cache write_cache cache net url data key? max_retries
        use_proxy proxies perr).response = attemptResponse url (net max_retries) ∧
      (write_cache = true →
        (Download.get read_cache write_cache cache net url data key? max_retries
          use_proxy proxies perr).wrote =
          some (Download.getKey url data key?, attemptResponse url (net max_retries)))) := by
  refine ⟨?_, ?_, ?_⟩
  · intro r h
    simp [Download.get, h]
  · intro h
    constructor
    · simpa [Download.get, h] using runAttempts_attempts_pos net url max_retries use_proxy
        max_retries 0 proxies perr ⟨"", 0, "", none⟩
    · simpa [Download.get, h] using runAttempts_attempts_le net url max_retries use_proxy
        (max_retries + 1) 0 proxies perr ⟨"", 0, "", none⟩
  · intro h hall
    have hrun := runAttempts_retriable net url max_retries use_proxy hall
      (max_retries + 1) 0 proxies perr ⟨"", 0, "", none⟩ (by omega)
    refine ⟨?_, ?_, ?_⟩
    · simpa [Download.get, h] using hrun.1
    · simpa [Download.get, h] using hrun.2
    · intro hwc
      subst hwc
      simp only [Download.get, h]
      simpa using hrun.2

/-- Witness for C1: the spec's scenario (`max_retries = 2`, every attempt
returns 503) makes exactly 3 attempts and caches the 503 response; and a
fresh cached 200 response is served with zero attempts. -/
theorem C1_get_cache_hit_and_attempt_bounds_witness :
    ((Download.get true true (fun _ => none)
        (fun _ => .ok "" 503 "Service Unavailable" "u") "u" none none 2 false []
        (fun _ => 0)).attempts = 3 ∧
      (Download.get true true (fun _ => none)
        (fun _ => .ok "" 503 "Service Unavailable" "u") "u" none none 2 false []
        (fun _ => 0)).wrote = some ("u", ⟨"", 503, "Service Unavailable", none⟩)) ∧
    ((Download.get true true (fun _ => some (.resp ⟨"body", 200, "OK", none⟩))
        (fun _ => .exn "never called") "u" none none 2 false []
        (fun _ => 0)).response = ⟨"body", 200, "OK", none⟩ ∧
      (Download.get true true (fun _ => some (.resp ⟨"body", 200, "OK", none⟩))
        (fun _ => .exn "never called") "u" none none 2 false []
        (fun _ => 0)).attempts = 0) := by
  constructor
  · have h := (C1_get_cache_hit_and_attempt_bounds true true (fun _ => none)
      (fun _ => .ok "" 503 "Service Unavailable" "u") "u" none none 2 false []
      (fun _ => 0)).2.2 rfl (by intro i _; decide)
    exact ⟨h.1, (h.2.2 rfl).trans (by decide)⟩
  · have h := (C1_get_cache_hit_and_attempt_bounds true true
      (fun _ => some (.resp ⟨"body", 200, "OK", none⟩))
      (fun _ => .exn "never called") "u" none none 2 false [] (fun _ => 0)).1
      ⟨"body", 200, "OK", none⟩ (by decide)
    exact h

/-- **C5** — when every attempt raises a transport exception, no
exception reaches the caller: each attempt is recovered into a synthetic
`Response('', 500, str(e))`, all `max_retries + 1` attempts are used, and
the call returns the last-seen synthetic response (caching it when
`write_cache` is set). -/
theorem C5_transport_exceptions_recovered (read_cache write_cache : Bool)
    (cache : String → Option CacheVal) (net : Nat → NetResult) (url : String)
    (data : Option String) (key? : Option String) (max_retries : Nat)
    (use_proxy : Bool) (proxies : List String) (perr : Option String → Nat)
    (d : Nat → String)
    (hmiss : freshHit read_cache cache (Download.getKey url data key?) max_retries = none)
    (hexn : ∀ i, i ≤ max_retries → net i = .exn (d i)) :
    (Download.get read_cache write_cache cache net url data key? max_retries
      use_proxy proxies perr).response = ⟨"", 500, d max_retries, none⟩ ∧
    (Download.get read_cache write_cache cache net url data key? max_retries
      use_proxy proxies perr).attempts = max_retries + 1 ∧
    (write_cache = true →
      (Download.get read_cache write_cache cache net url data key? max_retries
        use_proxy proxies perr).wrote =
        some (Download.getKey url data key?, ⟨"", 500, d max_retries, none⟩)) := by
  have hall : ∀ i, i ≤ max_retries → (net i).retriableOutcome = true := by
    intro i hi
    rw [hexn i hi]
    rfl
  have h := (C1_get_cache_hit_and_attempt_bounds read_cache write_cache cache net url
    data key? max_retries use_proxy proxies perr).2.2 hmiss hall
  have hresp : attemptResponse url (net max_retries) = ⟨"", 500, d max_retries, none⟩ := by
    rw [hexn max_retries (Nat.le_refl _)]
    rfl
  exact ⟨hresp ▸ h.2.1, h.1, fun hwc => hresp ▸ h.2.2 hwc⟩

/-- Witness for C5: two attempts, both raising (descriptions "timeout"
then "refused"); the call returns `Response('', 500, 'refused')` after 2
attempts and caches it. -/
theorem C5_transport_exceptions_recovered_witness :
    (Download.get false true (fun _ => none)
      (fun i => .exn (if i = 0 then "timeout" else "refused")) "u" none none 1 false []
      (fun _ => 0)).response = ⟨"", 500, "refused", none⟩ ∧
    (Download.get false true (fun _ => none)
      (fun i => .exn (if i = 0 then "timeout" else "refused")) "u" none none 1 false []
      (fun _ => 0)).attempts = 2 ∧
    (true = true →
      (Download.get false true (fun _ => none)
        (fun i => .exn (if i = 0 then "timeout" else "refused")) "u" none none 1 false []
        (fun _ => 0)).wrote = some (Download.getKey "u" none none, ⟨"", 500, "refused", none⟩)) :=
  C5_transport_exceptions_recovered false true (fun _ => none)
    (fun i => .exn (if i = 0 then "timeout" else "refused")) "u" none none 1 false []
    (fun _ => 0) (fun i => if i = 0 then "timeout" else "refused") rfl
    (by intro i hi; interval_cases i <;> rfl)

/-- **C7** — the claim that the Fetch Engine resets the proxy's failure
counter on every structural response, in particular on the final one that
terminates the loop, is false on the code: `self.proxy_errors[proxy] = 0`
(line 161) sits after the `else: break` (lines 159-160), so the break
skips it.  Failing input: `max_retries = 1`, proxies `["p1"]`, attempt 0
raises (counter becomes 1), attempt 1 returns a structural 200 that
terminates the loop — the claim requires the counter to be reset to 0,
but the code leaves it at 1. -/
theorem C7_no_reset_on_terminating_response :
    (Download.get false false (fun _ => none)
      (fun i => if i = 0 then .exn "connection timeout" else .ok "body" 200 "OK" "http://u")
      "http://u" none none 1 true ["p1"] (fun _ => 0)).response.status_code = 200 ∧
    (Download.get false false (fun _ => none)
      (fun i => if i = 0 then .exn "connection timeout" else .ok "body" 200 "OK" "http://u")
      "http://u" none none 1 true ["p1"] (fun _ => 0)).attempts = 2 ∧
    (Download.get false false (fun _ => none)
      (fun i => if i = 0 then .exn "connection timeout" else .ok "body" 200 "OK" "http://u")
      "http://u" none none 1 true ["p1"] (fun _ => 0)).proxy_errors (some "p1") = 1 := by
  refine ⟨by decide, by decide, by decide⟩

/-- **C10** — with `read_cache` enabled, a fresh cached value that is not
a `Response` (e.g. a raw string) is wrapped as `Response(value, 200, '')`
before the retry check, hence always treated as a success and returned
with zero network attempts. -/
theorem C10_raw_cache_value_wrapped (read_cache write_cache : Bool)
    (cache : String → Option CacheVal) (net : Nat → NetResult) (url : String)
    (data : Option String) (key? : Option String) (max_retries : Nat)
    (use_proxy : Bool) (proxies : List String) (perr : Option String → Nat)
    (s : String)
    (hrc : read_cache = true)
    (hraw : cache (Download.getKey url data key?) = some (.raw s)) :
    (Download.get read_cache write_cache cache net url data key? max_retries
      use_proxy proxies perr).response = ⟨s, 200, "", none⟩ ∧
    (Download.get read_cache write_cache cache net url data key? max_retries
      use_proxy proxies perr).attempts = 0 := by
  have hhit : freshHit read_cache cache (Download.getKey url data key?) max_retries =
      some ⟨s, 200, "", none⟩ := by
    subst hrc
    simp [freshHit, hraw, CacheVal.toResponse, should_retry, SUCCESS_STATUS]
  exact (C1_get_cache_hit_and_attempt_bounds read_cache write_cache cache net url data
    key? max_retries use_proxy proxies perr).1 ⟨s, 200, "", none⟩ hhit

/-- Witness for C10: a raw string `"hello"` cached under the key is
returned as `Response("hello", 200, '')` with zero attempts. -/
theorem C10_raw_cache_value_wrapped_witness :
    (Download.get true true (fun _ => some (.raw "hello"))
      (fun _ => .exn "never called") "u" none none 3 false []
      (fun _ => 0)).response = ⟨"hello", 200, "", none⟩ ∧
    (Download.get true true (fun _ => some (.raw "hello"))
      (fun _ => .exn "never called") "u" none none 3 false []
      (fun _ => 0)).attempts = 0 :=
  C10_raw_cache_value_wrapped true true (fun _ => some (.raw "hello"))
    (fun _ => .exn "never called") "u" none none 3 false [] (fun _ => 0) "hello" rfl rfl

/-! ### Theorems: Download.threaded (claims C2, C3, C4) -/

/-- The crawl loop never serves a request inline: the cache-hit path dies
in the arity-mismatched `_should_retry` call before reaching the inline
branch. -/
theorem threadedDispatch_no_inline (cache : List (String × CacheVal)) (req : Request) :
    threadedDispatch cache req = .ok .submit ∨
    ∃ e, threadedDispatch cache req = .error e := by
  cases h : cacheLookup cache req.get_key with
  | none => exact .inl (by simp [threadedDispatch, h])
  | some v =>
      exact .inr ⟨"TypeError: _should_retry() missing 2 required positional arguments: num_failures and max_retries",
        by simp [threadedDispatch, h, should_retry_one_arg_call]⟩

/-- **C2** — the claim that a request whose key has a fresh cached
response is served inline (callback invoked with the cached response, no
pool submission) is false on the code: the check at line 215 calls
`self._should_retry(response)` with two required positional arguments
missing, so any cache hit raises `TypeError`, which is not caught by the
`except KeyError` handler and aborts the run instead. -/
theorem C2_cache_hit_raises_type_error (cache : List (String × CacheVal)) (req : Request)
    (v : CacheVal) (hv : cacheLookup cache req.get_key = some v) :
    threadedDispatch cache req =
      .error "TypeError: _should_retry() missing 2 required positional arguments: num_failures and max_retries" := by
  simp [threadedDispatch, hv, should_retry_one_arg_call]

/-- Witness for C2: a request for `"u"` with a fresh cached 200 response
under its key hits the `TypeError`. -/
theorem C2_cache_hit_raises_type_error_witness :
    threadedDispatch [("u", .resp ⟨"body", 200, "OK", none⟩)] ⟨"u", none, none⟩ =
      .error "TypeError: _should_retry() missing 2 required positional arguments: num_failures and max_retries" :=
  C2_cache_hit_raises_type_error [("u", .resp ⟨"body", 200, "OK", none⟩)]
    ⟨"u", none, none⟩ (.resp ⟨"body", 200, "OK", none⟩) rfl

/-- **C3 counterexample** — the claim that an exception raised by a
caller-supplied callback is caught, logged, and only that task skipped is
false on the code: with two completed tasks whose callbacks are "raise
`boom`" and "yield `r2`", the run aborts with the uncaught `boom` and
produces no results at all (the claim requires `err = none` and `r2`
among the results). -/
theorem C3_callback_exception_aborts_counterexample :
    (processCompleted true (fun i _ _ => if i = 0 then .error "boom" else .ok [.out "r2"])
      [(⟨"u1", none, some 0⟩, .ok ⟨"a", 200, "OK", none⟩),
       (⟨"u2", none, some 1⟩, .ok ⟨"b", 200, "OK", none⟩)]
      ⟨[], [], []⟩).err = some "boom" ∧
    (processCompleted true (fun i _ _ => if i = 0 then .error "boom" else .ok [.out "r2"])
      [(⟨"u1", none, some 0⟩, .ok ⟨"a", 200, "OK", none⟩),
       (⟨"u2", none, some 1⟩, .ok ⟨"b", 200, "OK", none⟩)]
      ⟨[], [], []⟩).outs = [] :=
  ⟨rfl, rfl⟩

/-- **C3 amended** — the `try`/`except` of the completion loop (lines
226-229) covers only `future.result()`: an exception raised inside the
worker's fetch is caught, logged and that task alone skipped, and a run
whose callbacks never raise never aborts; an exception raised by a
callback itself, however, propagates and aborts the run (see the
counterexample). -/
theorem C3_fetch_failures_skipped (fd : Bool) (cbEnv : CbEnv)
    (hcb : ∀ i req resp, ∃ ys, cbEnv i req resp = .ok ys) :
    (∀ tasks st, (processCompleted fd cbEnv tasks st).err = none) ∧
    (∀ req e rest st,
      processCompleted fd cbEnv ((req, .error e) :: rest) st =
        processCompleted fd cbEnv rest st) := by
  constructor
  · intro tasks
    induction tasks with
    | nil =>
        intro st
        rfl
    | cons task rest ih =>
        intro st
        obtain ⟨req, fres⟩ := task
        cases fres with
        | error e => exact ih st
        | ok resp =>
            simp only [processCompleted]
            cases hc : req.cb with
            | none =>
                simp only [process_callback, hc]
                exact ih _
            | some i =>
                obtain ⟨ys, hys⟩ := hcb i req resp
                simp only [process_callback, hc, hys]
                exact ih _
  · intro req e rest st
    rfl

/-- Witness for C3 amended: one task whose worker raised and one that
completed, with callbacks that never raise — the run does not abort. -/
theorem C3_fetch_failures_skipped_witness :
    (processCompleted true (fun _ _ _ => .ok [.out "r2"])
      [(⟨"u1", none, none⟩, .error "worker exception"),
       (⟨"u2", none, some 0⟩, .ok ⟨"b", 200, "OK", none⟩)]
      ⟨[], [], []⟩).err = none :=
  (C3_fetch_failures_skipped true (fun _ _ _ => .ok [.out "r2"])
    (fun _ _ _ => ⟨[.out "r2"], rfl⟩)).1 _ _

theorem keysOf_append (l₁ l₂ : List Request) :
    keysOf (l₁ ++ l₂) = keysOf l₁ ++ keysOf l₂ :=
  List.map_append _ _ _

/-- The crawl invariant does not mention the cache. -/
theorem crawlInv_set_cache (st : CrawlState) (c : List (String × CacheVal))
    (S : List String) (h : CrawlInv st S) : CrawlInv { st with cache := c } S :=
  ⟨h.pend_nodup, h.sub_nodup, h.disj, h.pend_seen, h.sub_seen⟩

/-- Processing callback yields with deduplication preserves the crawl
invariant, and `seen` only grows. -/
theorem processYields_inv (items : List Yielded) :
    ∀ (st : CrawlState) (S : List String), CrawlInv st S →
      CrawlInv (processYields true items st).2 S ∧
      (∀ x, x ∈ st.seen → x ∈ (processYields true items st).2.seen) := by
  induction items with
  | nil =>
      intro st S h
      exact ⟨h, fun x hx => hx⟩
  | cons item rest ih =>
      intro st S h
      cases item with
      | out s =>
          have heq : processYields true (.out s :: rest) st =
              (s :: (processYields true rest st).1, (processYields true rest st).2) := by
            simp [processYields]
          rw [heq]
          exact ih st S h
      | req r =>
          by_cases hk : r.get_key ∈ st.seen
          · have heq : processYields true (.req r :: rest) st =
                processYields true rest st := by
              simp [processYields, hk]
            rw [heq]
            exact ih st S h
          · have heq : processYields true (.req r :: rest) st =
                processYields true rest
                  { st with pending := st.pending ++ [r], seen := r.get_key :: st.seen } := by
              simp [processYields, hk]
            rw [heq]
            have hnot : r.get_key ∉ keysOf st.pending := fun hmem => hk (h.pend_seen _ hmem)
            have hinv' : CrawlInv
                { st with pending := st.pending ++ [r], seen := r.get_key :: st.seen } S := by
              refine ⟨?_, h.sub_nodup, ?_, ?_, ?_⟩
              · rw [keysOf_append, List.nodup_append]
                refine ⟨h.pend_nodup, ?_, ?_⟩
                · simp [keysOf]
                · intro a ha hb
                  simp [keysOf] at hb
                  subst hb
                  exact hnot ha
              · intro k hkmem
                rw [keysOf_append] at hkmem
                rcases List.mem_append.mp hkmem with hmem | hmem
                · exact h.disj k hmem
                · simp [keysOf] at hmem
                  subst hmem
                  intro hS
                  exact hk (h.sub_seen _ hS)
              · intro k hkmem
                rw [keysOf_append] at hkmem
                rcases List.mem_append.mp hkmem with hmem | hmem
                · exact List.mem_cons_of_mem _ (h.pend_seen _ hmem)
                · simp [keysOf] at hmem
                  subst hmem
                  exact List.mem_cons_self _ _
              · intro k hS
                exact List.mem_cons_of_mem _ (h.sub_seen _ hS)
            have hres := ih _ S hinv'
            exact ⟨hres.1, fun x hx => hres.2 x (List.mem_cons_of_mem _ hx)⟩

/-- A callback invocation that returns preserves the crawl invariant. -/
theorem process_callback_inv (cbEnv : CbEnv) (req : Request) (resp : Response)
    (st : CrawlState) (S : List String) (p : List String × CrawlState)
    (h : CrawlInv st S) (hp : process_callback true cbEnv req resp st = .ok p) :
    CrawlInv p.2 S ∧ (∀ x, x ∈ st.seen → x ∈ p.2.seen) := by
  unfold process_callback at hp
  cases hc : req.cb with
  | none =>
      rw [hc] at hp
      cases hp
      exact ⟨h, fun x hx => hx⟩
  | some i =>
      rw [hc] at hp
      dsimp only at hp
      cases he : cbEnv i req resp with
      | error e =>
          rw [he] at hp
          cases hp
      | ok items =>
          rw [he] at hp
          cases hp
          exact processYields_inv items st S h

/-- Processing a batch of completed tasks preserves the crawl invariant,
and `seen` only grows. -/
theorem processCompleted_inv (cbEnv : CbEnv) :
    ∀ (tasks : List (Request × Except String Response)) (st : CrawlState)
      (S : List String), CrawlInv st S →
      CrawlInv (processCompleted true cbEnv tasks st).st S ∧
      (∀ x, x ∈ st.seen → x ∈ (processCompleted true cbEnv tasks st).st.seen) := by
  intro tasks
  induction tasks with
  | nil =>
      intro st S h
      exact ⟨h, fun x hx => hx⟩
  | cons task rest ih =>
      intro st S h
      obtain ⟨req, fres⟩ := task
      cases fres with
      | error e =>
          have heq : processCompleted true cbEnv ((req, .error e) :: rest) st =
              processCompleted true cbEnv rest st := rfl
          rw [heq]
          exact ih st S h
      | ok resp =>
          have h1 : CrawlInv
              { st with cache := (req.get_key, CacheVal.resp resp) :: st.cache } S :=
            crawlInv_set_cache st _ S h
          cases hpc : process_callback true cbEnv req resp
              { st with cache := (req.get_key, CacheVal.resp resp) :: st.cache } with
          | error e =>
              have heq : processCompleted true cbEnv ((req, .ok resp) :: rest) st =
                  ⟨[], { st with cache := (req.get_key, CacheVal.resp resp) :: st.cache },
                    some e⟩ := by
                simp [processCompleted, hpc]
              rw [heq]
              exact ⟨h1, fun x hx => hx⟩
          | ok p =>
              have hcb := process_callback_inv cbEnv req resp _ S p h1 hpc
              have heq : processCompleted true cbEnv ((req, .ok resp) :: rest) st =
                  ⟨p.1 ++ (processCompleted true cbEnv rest p.2).outs,
                    (processCompleted true cbEnv rest p.2).st,
                    (processCompleted true cbEnv rest p.2).err⟩ := by
                simp [processCompleted, hpc]
              rw [heq]
              have hrest := ih p.2 S hcb.1
              exact ⟨hrest.1, fun x hx => hrest.2 x (hcb.2 x hx)⟩

/-- The dispatch phase never changes the crawl state (every pulled
request is either submitted or aborts the run), and the keys it submits
are a sublist of the keys it pulled. -/
theorem dispatchAll_submit_only (fetch : Request → Except String Response) (cbEnv : CbEnv) :
    ∀ (cur : List Request) (st : CrawlState),
      (dispatchAll fetch true cbEnv cur st).st = st ∧
      (dispatchAll fetch true cbEnv cur st).submitted.Sublist (keysOf cur) := by
  intro cur
  induction cur with
  | nil =>
      intro st
      exact ⟨rfl, List.Sublist.refl _⟩
  | cons req rest ih =>
      intro st
      rcases threadedDispatch_no_inline st.cache req with hsub | ⟨e, herr⟩
      · have heq : dispatchAll fetch true cbEnv (req :: rest) st =
            ⟨(req, fetch req) :: (dispatchAll fetch true cbEnv rest st).batch,
              req.get_key :: (dispatchAll fetch true cbEnv rest st).submitted,
              (dispatchAll fetch true cbEnv rest st).outs,
              (dispatchAll fetch true cbEnv rest st).st,
              (dispatchAll fetch true cbEnv rest st).err⟩ := by
          simp [dispatchAll, hsub]
        rw [heq]
        exact ⟨(ih st).1, List.Sublist.cons₂ _ (ih st).2⟩
      · have heq : dispatchAll fetch true cbEnv (req :: rest) st =
            ⟨[], [], [], st, some e⟩ := by
          simp [dispatchAll, herr]
        rw [heq]
        exact ⟨rfl, List.nil_sublist _⟩

/-- Dispatching a window of pulled requests extends the submitted keys
while maintaining the crawl invariant, provided the pulled keys are
distinct, seen, unsubmitted and no longer pending. -/
theorem dispatchAll_inv (fetch : Request → Except String Response) (cbEnv : CbEnv)
    (cur : List Request) (st : CrawlState) (S : List String) (h : CrawlInv st S)
    (hnd : (keysOf cur).Nodup)
    (hseen : ∀ k, k ∈ keysOf cur → k ∈ st.seen)
    (hS : ∀ k, k ∈ keysOf cur → k ∉ S)
    (hpend : ∀ k, k ∈ keysOf cur → k ∉ keysOf st.pending) :
    CrawlInv (dispatchAll fetch true cbEnv cur st).st
      ((dispatchAll fetch true cbEnv cur st).submitted ++ S) := by
  obtain ⟨hst, hsub⟩ := dispatchAll_submit_only fetch cbEnv cur st
  rw [hst]
  have hsubmem : ∀ k, k ∈ (dispatchAll fetch true cbEnv cur st).submitted →
      k ∈ keysOf cur := fun k hk => hsub.subset hk
  refine ⟨h.pend_nodup, ?_, ?_, h.pend_seen, ?_⟩
  · rw [List.nodup_append]
    exact ⟨List.Nodup.sublist hsub hnd, h.sub_nodup,
      fun a ha hb => hS a (hsubmem a ha) hb⟩
  · intro k hk hmem
    rcases List.mem_append.mp hmem with hmem | hmem
    · exact hpend k (hsubmem k hmem) hk
    · exact h.disj k hk hmem
  · intro k hk
    rcases List.mem_append.mp hk with hk | hk
    · exact hseen k (hsubmem k hk)
    · exact h.sub_seen k hk

/-- Pulling a window off the pending list splits its keys: both parts
keep distinct keys, keys stay keys of the original list, and the two
parts share no key. -/
theorem popWindow_facts (n : Nat) (pending : List Request)
    (h : (keysOf pending).Nodup) :
    (keysOf (popWindow n pending).1).Nodup ∧
    (keysOf (popWindow n pending).2).Nodup ∧
    (∀ k, k ∈ keysOf (popWindow n pending).1 → k ∈ keysOf pending) ∧
    (∀ k, k ∈ keysOf (popWindow n pending).2 → k ∈ keysOf pending) ∧
    (∀ k, k ∈ keysOf (popWindow n pending).1 → k ∉ keysOf (popWindow n pending).2) := by
  have h1 : keysOf (popWindow n pending).1 = ((keysOf pending).reverse).take n := by
    simp [popWindow, keysOf, List.map_take, List.map_reverse]
  have h2 : keysOf (popWindow n pending).2 = (((keysOf pending).reverse).drop n).reverse := by
    simp [popWindow, keysOf, List.map_drop, List.map_reverse]
  have hrev : ((keysOf pending).reverse).Nodup := List.nodup_reverse.mpr h
  refine ⟨?_, ?_, ?_, ?_, ?_⟩
  · rw [h1]
    exact List.Nodup.sublist (List.take_sublist _ _) hrev
  · rw [h2]
    exact List.nodup_reverse.mpr (List.Nodup.sublist (List.drop_sublist _ _) hrev)
  · rw [h1]
    intro k hk
    exact List.mem_reverse.mp ((List.take_sublist _ _).subset hk)
  · rw [h2]
    intro k hk
    exact List.mem_reverse.mp ((List.drop_sublist _ _).subset (List.mem_reverse.mp hk))
  · rw [h1, h2]
    intro k hk hk2
    exact List.disjoint_take_drop hrev (Nat.le_refl n) hk (List.mem_reverse.mp hk2)

/-- Main induction for C4: a deduplicating round loop started in an
invariant state never submits a key twice, nor a key submitted before. -/
theorem threadedLoop_inv (fetch : Request → Except String Response)
    (reorder : Nat → List (Request × Except String Response) →
      List (Request × Except String Response))
    (cbEnv : CbEnv) (max_queue : Nat) :
    ∀ (fuel round : Nat) (st : CrawlState) (S : List String), CrawlInv st S →
      ((threadedLoop fetch reorder true cbEnv max_queue fuel round st).submitted
        ++ S).Nodup := by
  intro fuel
  induction fuel with
  | zero =>
      intro round st S h
      simpa [threadedLoop] using h.sub_nodup
  | succ fuel ih =>
      intro round st S h
      by_cases hp : st.pending.isEmpty = true
      · have heq : threadedLoop fetch reorder true cbEnv max_queue (fuel + 1) round st =
            ⟨[], [], none, st⟩ := by
          simp [threadedLoop, hp]
        rw [heq]
        simpa using h.sub_nodup
      · obtain ⟨hc1, hc2, hm1, hm2, hdisj⟩ :=
          popWindow_facts max_queue st.pending h.pend_nodup
        have h1 : CrawlInv { st with pending := (popWindow max_queue st.pending).2 } S :=
          ⟨hc2, h.sub_nodup, fun k hk => h.disj k (hm2 k hk),
            fun k hk => h.pend_seen k (hm2 k hk), h.sub_seen⟩
        have hdinv := dispatchAll_inv fetch cbEnv (popWindow max_queue st.pending).1
          { st with pending := (popWindow max_queue st.pending).2 } S h1 hc1
          (fun k hk => h.pend_seen k (hm1 k hk))
          (fun k hk hkS => h.disj k (hm1 k hk) hkS)
          hdisj
        simp only [threadedLoop]
        rw [if_neg hp]
        set d := dispatchAll fetch true cbEnv (popWindow max_queue st.pending).1
          { st with pending := (popWindow max_queue st.pending).2 } with hd
        cases herr : d.err with
        | some e =>
            exact hdinv.sub_nodup
        | none =>
            have hbinv := processCompleted_inv cbEnv (reorder round d.batch) d.st
              (d.submitted ++ S) hdinv
            set b := processCompleted true cbEnv (reorder round d.batch) d.st with hb
            cases hberr : b.err with
            | some e =>
                exact hdinv.sub_nodup
            | none =>
                have hrec := ih (round + 1) b.st (d.submitted ++ S) hbinv.1
                set r := threadedLoop fetch reorder true cbEnv max_queue fuel
                  (round + 1) b.st with hr
                have hperm : List.Perm ((d.submitted ++ r.submitted) ++ S)
                    (r.submitted ++ (d.submitted ++ S)) := by
                  have ha : List.Perm ((d.submitted ++ r.submitted) ++ S)
                      ((r.submitted ++ d.submitted) ++ S) :=
                    List.Perm.append_right S List.perm_append_comm
                  have hb2 : (r.submitted ++ d.submitted) ++ S =
                      r.submitted ++ (d.submitted ++ S) := List.append_assoc _ _ _
                  exact hb2 ▸ ha
                exact hperm.symm.nodup hrec

/-- Seed filtering produces a pending list with distinct keys, all
recorded in the returned `seen`, none of them previously seen. -/
theorem seedFilterGo_facts :
    ∀ (seeds : List Request) (seen : List String),
      (keysOf (seedFilterGo seeds seen).1).Nodup ∧
      (∀ k, k ∈ keysOf (seedFilterGo seeds seen).1 → k ∈ (seedFilterGo seeds seen).2) ∧
      (∀ k, k ∈ seen → k ∈ (seedFilterGo seeds seen).2) ∧
      (∀ k, k ∈ keysOf (seedFilterGo seeds seen).1 → k ∉ seen) := by
  intro seeds
  induction seeds with
  | nil =>
      intro seen
      exact ⟨List.nodup_nil, fun k hk => absurd hk (List.not_mem_nil k),
        fun k hk => hk, fun k hk => absurd hk (List.not_mem_nil k)⟩
  | cons r rest ih =>
      intro seen
      by_cases hk : r.get_key ∈ seen
      · have heq : seedFilterGo (r :: rest) seen = seedFilterGo rest seen := by
          simp [seedFilterGo, hk]
        rw [heq]
        exact ih seen
      · have heq : seedFilterGo (r :: rest) seen =
            (r :: (seedFilterGo rest (r.get_key :: seen)).1,
              (seedFilterGo rest (r.get_key :: seen)).2) := by
          simp [seedFilterGo, hk]
        rw [heq]
        obtain ⟨h1, h2, h3, h4⟩ := ih (r.get_key :: seen)
        refine ⟨?_, ?_, ?_, ?_⟩
        · refine List.nodup_cons.mpr ⟨?_, h1⟩
          intro hmem
          exact h4 _ hmem (List.mem_cons_self _ _)
        · intro k hkm
          rcases List.mem_cons.mp hkm with hkm | hkm
          · subst hkm
            exact h3 _ (List.mem_cons_self _ _)
          · exact h2 k hkm
        · intro k hkm
          exact h3 k (List.mem_cons_of_mem _ hkm)
        · intro k hkm hkseen
          rcases List.mem_cons.mp hkm with hkm | hkm
          · subst hkm
            exact hk hkseen
          · exact h4 k hkm (List.mem_cons_of_mem _ hkseen)

/-- **C4** — with `filter_duplicates = true`, a `threaded` run submits at
most one fetch to the worker pool per distinct request key, whatever the
seeds (duplicates included), the callbacks, the fetch outcomes, the
completion orders and the window size: the submission trace has no
repeated key. -/
theorem C4_dedup_one_submit_per_key (fetch : Request → Except String Response)
    (reorder : Nat → List (Request × Except String Response) →
      List (Request × Except String Response))
    (cbEnv : CbEnv) (max_queue fuel : Nat)
    (seeds : List Request) (cache0 : List (String × CacheVal)) :
    (Download.threaded fetch reorder true cbEnv max_queue fuel seeds
      cache0).submitted.Nodup := by
  obtain ⟨h1, h2, _, _⟩ := seedFilterGo_facts seeds []
  have hinv : CrawlInv ⟨(seedFilterGo seeds []).1, (seedFilterGo seeds []).2, cache0⟩ [] :=
    ⟨h1, List.nodup_nil, fun k _ => List.not_mem_nil k, h2,
      fun k hk => absurd hk (List.not_mem_nil k)⟩
  have h := threadedLoop_inv fetch reorder cbEnv max_queue fuel 0
    ⟨(seedFilterGo seeds []).1, (seedFilterGo seeds []).2, cache0⟩ [] hinv
  have heq : Download.threaded fetch reorder true cbEnv max_queue fuel seeds cache0 =
      threadedLoop fetch reorder true cbEnv max_queue fuel 0
        ⟨(seedFilterGo seeds []).1, (seedFilterGo seeds []).2, cache0⟩ := by
    simp [Download.threaded]
  rw [heq]
  simpa using h

end WS
